import Mathlib

set_option maxRecDepth 100000

/-!
Verification development for the F1 incremental ETL pipeline.

The Python sources are shallowly embedded: SQL tables become lists of row
structures, timestamps become rationals (so a last-sync timestamp can carry an
intra-day fraction), SQL dates become a pair of a calendar year and an absolute
day index (both observable on a SQL date value via `EXTRACT(YEAR FROM date)`
and date comparison respectively), machine integers become `Int`, and fallible
Python code returns `Except String`.  Database mutation is explicit state
passing; psycopg2 transactions are modelled by a connection carrying a
committed snapshot next to the working state, with `commit`/`rollback`
switching between them.
-/

/-- A SQL `date` value: the calendar year (what `EXTRACT(YEAR FROM date)`
returns) together with an absolute day index used for date comparison and
date arithmetic. -/
structure CalDate where
  year : Int
  day : Int
deriving DecidableEq, Repr

/-- Row of `formula_one.round` (columns used by the sources: id, number, date;
`date` is nullable). -/
structure RoundRow where
  id : Int
  number : Int
  date : Option CalDate
deriving DecidableEq, Repr

/-- Row of `formula_one.session` (columns used: id, round_id, type, number). -/
structure SessionRow where
  id : Int
  round_id : Int
  type : String
  number : Int
deriving DecidableEq, Repr

/-- Row of `formula_one.driver` (columns used: reference, id). -/
structure DriverRow where
  reference : String
  id : Int
deriving DecidableEq, Repr

/-- Row of `formula_one.team` (columns used: reference, id). -/
structure TeamRow where
  reference : String
  id : Int
deriving DecidableEq, Repr

/-- Row of `formula_one.season` (columns used: year, id). -/
structure SeasonRow where
  year : Int
  id : Int
deriving DecidableEq, Repr

/-- Row of the metadata table `sync_status` (one watermark row per entity). -/
structure SyncStatusRow where
  entity_name : String
  status : String
  last_updated : ℚ
  last_successful_sync : Option ℚ
  last_season_year : Option Int
  last_round_number : Option Int
  total_records : Int
  error_message : Option String
deriving DecidableEq, Repr

/-- Row of the metadata table `sync_log` (append-only audit trail). -/
structure SyncLogRow where
  id : Int
  entity_name : String
  status : String
  sync_timestamp : ℚ
  records_affected : Int
  duration_seconds : Int
  error_message : Option String
deriving DecidableEq, Repr

/-- The database state visible to `metadata.py` and to the lookup-map builder
of `base_loader.py`: the metadata namespace (`sync_status`, `sync_log`, and
the serial sequence feeding `sync_log.id`) and the reference tables of the
domain namespace.  Result tables are modelled separately, per loader. -/
structure DB where
  sync_status : List SyncStatusRow
  sync_log : List SyncLogRow
  next_log_id : Int
  rounds : List RoundRow
  sessions : List SessionRow
  drivers : List DriverRow
  teams : List TeamRow
  seasons : List SeasonRow
deriving DecidableEq, Repr

/-- `config.LoadStrategy`. -/
inductive LoadStrategy where
  | pre_season
  | post_race
deriving DecidableEq, Repr

/-- `config.TableConfig` restricted to the fields the embedded code reads. -/
structure TableConfig where
  name : String
  strategy : LoadStrategy
deriving DecidableEq, Repr

/-- `config.TABLES`: the fixed table registry.  Note the source really does
give the `race_result` entry the name `sprint_result`; only the `strategy`
field is read by the embedded code. -/
def TABLES : String → Option TableConfig
  | "circuit" => some ⟨"circuit", .pre_season⟩
  | "season" => some ⟨"season", .pre_season⟩
  | "team" => some ⟨"team", .pre_season⟩
  | "round" => some ⟨"round", .pre_season⟩
  | "session" => some ⟨"session", .pre_season⟩
  | "driver" => some ⟨"driver", .pre_season⟩
  | "team_driver" => some ⟨"team_driver", .pre_season⟩
  | "sprint_result" => some ⟨"sprint_result", .post_race⟩
  | "qualifying_result" => some ⟨"qualifying_result", .post_race⟩
  | "race_result" => some ⟨"sprint_result", .post_race⟩
  | "driver_championship" => some ⟨"driver_championship", .post_race⟩
  | "team_championship" => some ⟨"team_championship", .post_race⟩
  | _ => none

namespace MetadataManager

/-- The dictionary returned by `MetadataManager.get_watermark`. -/
structure Watermark where
  season_year : Option Int
  round_number : Option Int
  last_sync : Option ℚ
  total_records : Int
deriving DecidableEq, Repr

/-- `MetadataManager.get_watermark`: read the `sync_status` row of the entity;
a never-synced entity yields the empty watermark (`.get` on the missing keys
of the Python dict returns `None`). -/
def get_watermark (db : DB) (entity_name : String) : Watermark :=
  match db.sync_status.find? (fun r => r.entity_name == entity_name) with
  | some r => ⟨r.last_season_year, r.last_round_number, r.last_successful_sync, r.total_records⟩
  | none => ⟨none, none, none, 0⟩

/-- `MetadataManager.start_sync`: set the entity's `sync_status` row to
`running`, append a `running` row to `sync_log`, and return the new log id
(the serial sequence value). -/
def start_sync (db : DB) (entity_name : String) (now : ℚ) : Int × DB :=
  let log_id := db.next_log_id
  let status := db.sync_status.map (fun r =>
    if r.entity_name == entity_name then { r with status := "running", last_updated := now } else r)
  let log := db.sync_log ++ [⟨log_id, entity_name, "running", now, 0, 0, none⟩]
  (log_id, { db with sync_status := status, sync_log := log, next_log_id := log_id + 1 })

/-- `MetadataManager.complete_sync`: finalize the `sync_log` row, then update
the entity's `sync_status` row.  On success the watermark season/round are
merged only when the provided value is present and truthy (Python checks
`if watermark['season_year']`, so a zero is not merged); on failure only
status, `last_updated` and `error_message` change. -/
def complete_sync (db : DB) (entity_name : String) (log_id : Int) (success : Bool)
    (records_affected : Int) (duration_seconds : Int) (error_message : Option String)
    (wm_season_year : Option Int) (wm_round_number : Option Int) (now : ℚ) : DB :=
  let status_str := if success then "success" else "failed"
  let log := db.sync_log.map (fun r =>
    if r.id == log_id then
      { r with status := status_str, records_affected := records_affected,
               duration_seconds := duration_seconds, error_message := error_message }
    else r)
  let status := if success then
      db.sync_status.map (fun r =>
        if r.entity_name == entity_name then
          { r with status := "success",
                   last_successful_sync := some now,
                   last_updated := now,
                   total_records := r.total_records + records_affected,
                   error_message := none,
                   last_season_year :=
                     match wm_season_year with
                     | some y => if y != 0 then some y else r.last_season_year
                     | none => r.last_season_year,
                   last_round_number :=
                     match wm_round_number with
                     | some n => if n != 0 then some n else r.last_round_number
                     | none => r.last_round_number }
        else r)
    else
      db.sync_status.map (fun r =>
        if r.entity_name == entity_name then
          { r with status := "failed", last_updated := now, error_message := error_message }
        else r)
  { db with sync_log := log, sync_status := status }

/-- `SELECT MAX(col)` over a list of values: `none` on the empty set. -/
def sqlMax (l : List Int) : Option Int :=
  l.foldl (fun acc n => match acc with | none => some n | some m => some (max m n)) none

/-- The `max_round` computation inside `get_next_round_to_load`:
`MAX(number)` over the rounds of the season, with the Python falsy check
`result[0] if result and result[0] else 0` collapsing both NULL and 0 to 0. -/
def max_round_of_season (db : DB) (current_season : Int) : Int :=
  let numbers := (db.rounds.filter (fun r =>
    match r.date with
    | some d => d.year == current_season
    | none => false)).map (fun r => r.number)
  match sqlMax numbers with
  | none => 0
  | some v => if v == 0 then 0 else v

/-- `MetadataManager.get_next_round_to_load`.  When the watermark carries a
round number but a NULL season year, the Python comparison
`last_season < current_season` raises a `TypeError`; this is modelled by the
`Except` error branch. -/
def get_next_round_to_load (db : DB) (entity_name : String) (current_season : Int) :
    Except String (Option Int) :=
  let w := get_watermark db entity_name
  match w.round_number with
  | none => .ok (some 1)
  | some last_round =>
    match w.season_year with
    | none => .error "TypeError"
    | some last_season =>
      if last_season < current_season then .ok (some 1)
      else
        let mx := max_round_of_season db current_season
        if last_round < mx then .ok (some (last_round + 1)) else .ok none

/-- `ORDER BY date DESC LIMIT 1` over a candidate list of rounds: pick an
element with maximal date (the comparison only ever reads the date). -/
def pickLatest (roundDay : RoundRow → Int) : List RoundRow → Option RoundRow
  | [] => none
  | r :: l =>
    match pickLatest roundDay l with
    | none => some r
    | some a => if roundDay r > roundDay a then some r else some a

/-- The day index of a round's date (only applied to rounds whose date is
non-NULL; 0 is a dummy for the NULL case). -/
def roundDay (r : RoundRow) : Int :=
  match r.date with
  | some d => d.day
  | none => 0

/-- `MetadataManager._was_there_race_since_last_sync`: take the latest round
of the season dated at least `buffer_days` before the current date, and test
whether its midnight timestamp is strictly after `last_sync` minus one day. -/
def was_there_race_since_last_sync (db : DB) (season_year : Int) (last_sync : ℚ)
    (today : Int) (buffer_days : Int) : Bool :=
  let candidates := db.rounds.filter (fun r =>
    match r.date with
    | some d => d.year == season_year && d.day ≤ today - buffer_days
    | none => false)
  match pickLatest roundDay candidates with
  | none => false
  | some r => decide ((roundDay r : ℚ) > last_sync - 1)

/-- `MetadataManager._was_there_sprint_since_last_sync`: the same check run
over the inner join of `session` (type `SR`) with `round`. -/
def was_there_sprint_since_last_sync (db : DB) (season_year : Int) (last_sync : ℚ)
    (today : Int) (buffer_days : Int) : Bool :=
  let joined := (db.sessions.filter (fun s => s.type == "SR")).flatMap
    (fun s => db.rounds.filter (fun r => r.id == s.round_id))
  let candidates := joined.filter (fun r =>
    match r.date with
    | some d => d.year == season_year && d.day ≤ today - buffer_days
    | none => false)
  match pickLatest roundDay candidates with
  | none => false
  | some r => decide ((roundDay r : ℚ) > last_sync - 1)

/-- `MetadataManager.should_load`.  `today` is the SQL `CURRENT_DATE`. -/
def should_load (db : DB) (entity_name : String) (current_season : Int) (today : Int) : Bool :=
  match TABLES entity_name with
  | none => false
  | some config =>
    let w := get_watermark db entity_name
    match w.last_sync with
    | none => true
    | some last_sync =>
      match config.strategy with
      | .pre_season =>
        match w.season_year with
        | none => true
        | some last_season => decide (last_season < current_season)
      | .post_race =>
        if entity_name == "sprint_result" then
          was_there_sprint_since_last_sync db current_season last_sync today 3
        else
          was_there_race_since_last_sync db current_season last_sync today 3

end MetadataManager

namespace BaseLoader

/-- Fuel-driven base-2 logarithm on naturals (`Nat.log2 n` for `n ≥ 1`,
enough fuel supplied at every call site); structural recursion keeps it
kernel-reducible. -/
def log2fuel : Nat → Nat → Nat
  | 0, _ => 0
  | fuel + 1, n => if n < 2 then 0 else log2fuel fuel (n / 2) + 1

/-- An IEEE-754 binary64 value, represented exactly as the dyadic rational
`num / 2 ^ exp` (not necessarily normalized).  Covers the normal range,
which contains every value the pipeline's lap-time arithmetic can
produce. -/
structure F64 where
  num : Int
  exp : Nat
deriving DecidableEq, Repr

/-- Round the positive rational `a / b` to the nearest binary64 value
(round-to-nearest, ties-to-even). -/
def roundF64pos (a b : Nat) : F64 :=
  let s := a * 2 ^ 128 / b
  let L : Int := (log2fuel 400 s : Int) - 128
  let e : Int := L - 52
  if 0 ≤ e then
    let d := b * 2 ^ e.toNat
    let q := a / d
    let r2 := 2 * (a % d)
    let m := if r2 < d then q else if d < r2 then q + 1 else if q % 2 == 0 then q else q + 1
    ⟨(m : Int) * 2 ^ e.toNat, 0⟩
  else
    let a2 := a * 2 ^ (-e).toNat
    let q := a2 / b
    let r2 := 2 * (a2 % b)
    let m := if r2 < b then q else if b < r2 then q + 1 else if q % 2 == 0 then q else q + 1
    ⟨(m : Int), (-e).toNat⟩

/-- Round the rational `n / d` to the nearest binary64 value. -/
def roundF64 (n : Int) (d : Nat) : F64 :=
  if n = 0 then ⟨0, 0⟩
  else if 0 < n then roundF64pos n.toNat d
  else
    let f := roundF64pos (-n).toNat d
    ⟨-f.num, f.exp⟩

/-- IEEE binary64 addition: exact sum, correctly rounded. -/
def fadd (x y : F64) : F64 :=
  roundF64 (x.num * 2 ^ y.exp + y.num * 2 ^ x.exp) (2 ^ (x.exp + y.exp))

/-- IEEE binary64 multiplication by the exactly representable 1000. -/
def fmul1000 (x : F64) : F64 :=
  roundF64 (x.num * 1000) (2 ^ x.exp)

/-- Python int-to-float conversion (exact below `2 ^ 53`, rounded above). -/
def intToF64 (n : Int) : F64 :=
  roundF64 n 1

/-- Python `int()` applied to a float: truncation toward zero. -/
def truncF64 (x : F64) : Int :=
  if 0 ≤ x.num then ((x.num.toNat / 2 ^ x.exp : Nat) : Int)
  else -(((-x.num).toNat / 2 ^ x.exp : Nat) : Int)

/-- Python `str.split(sep)` on a single-character separator (keeps empty
fields, like Python). -/
def pySplitOn (sep : Char) : List Char → List (List Char)
  | [] => [[]]
  | c :: rest =>
    match pySplitOn sep rest with
    | [] => [[]]
    | h :: t => if c == sep then [] :: h :: t else (c :: h) :: t

/-- Leading/trailing whitespace removal (Python `int()`/`float()` strip
their argument). -/
def pyTrim (cs : List Char) : List Char :=
  ((cs.dropWhile Char.isWhitespace).reverse.dropWhile Char.isWhitespace).reverse

/-- Value of a nonempty all-digit character list. -/
def digitsVal? (cs : List Char) : Option Nat :=
  if cs ≠ [] && cs.all Char.isDigit then
    some (cs.foldl (fun acc c => acc * 10 + (c.toNat - 48)) 0)
  else none

/-- Python `int(str)` on decimal literals: optional sign then digits;
anything else raises `ValueError`, modelled as `none`. -/
def parseInt? (cs : List Char) : Option Int :=
  match pyTrim cs with
  | '-' :: rest => (digitsVal? rest).map (fun n => -(n : Int))
  | '+' :: rest => (digitsVal? rest).map (fun n => (n : Int))
  | cs2 => (digitsVal? cs2).map (fun n => (n : Int))

/-- Digits of a possibly empty all-digit character list, as value and
length (used for the fractional part of a float literal). -/
def fracVal? (cs : List Char) : Option (Nat × Nat) :=
  if cs.all Char.isDigit then
    some (cs.foldl (fun acc c => acc * 10 + (c.toNat - 48)) 0, cs.length)
  else none

/-- The exact rational (numerator, denominator) denoted by a Python decimal
float literal (`123`, `1.5`, `.5`, `2.`, with optional sign).  Exponent,
infinity and NaN literals are outside the model; unparsable input is `none`
(`ValueError`). -/
def parseDecimal? (cs : List Char) : Option (Int × Nat) :=
  let core := fun (cs2 : List Char) =>
    match pySplitOn '.' cs2 with
    | [ip] => (digitsVal? ip).map (fun n => ((n : Int), 1))
    | [ip, fp] =>
      if ip.isEmpty && fp.isEmpty then none
      else
        match fracVal? ip, fracVal? fp with
        | some (iv, _), some (fv, fl) => some (((iv * 10 ^ fl + fv : Nat) : Int), 10 ^ fl)
        | _, _ => none
    | _ => none
  match pyTrim cs with
  | '-' :: rest => (core rest).map (fun p => (-p.1, p.2))
  | '+' :: rest => core rest
  | cs2 => core cs2

/-- Python `float(str)`: the decimal value correctly rounded to binary64. -/
def pyFloat? (cs : List Char) : Option F64 :=
  (parseDecimal? cs).map (fun p => roundF64 p.1 p.2)

/-- `BaseLoader.convert_time_to_ms`: `None`/empty strings map to `None`;
otherwise the string must split on a colon into exactly a minutes and a
seconds field (any `ValueError` from unpacking, `int()` or `float()` maps
to `None`), and the result is the Python float computation
`int((int(minutes) * 60 + float(seconds)) * 1000)` under exact binary64
semantics. -/
def convert_time_to_ms (time_str : Option String) : Option Int :=
  match time_str with
  | none => none
  | some s =>
    if s.data.isEmpty then none
    else
      match pySplitOn ':' s.data with
      | [mStr, sStr] =>
        match parseInt? mStr, pyFloat? sStr with
        | some minutes, some seconds =>
          some (truncF64 (fmul1000 (fadd (intToF64 (minutes * 60)) seconds)))
        | _, _ => none
      | _ => none

/-- `BaseLoader.safe_int`: `int(value)` with `TypeError`/`ValueError` caught.
On the already-numeric-or-absent JSON values of the model it is the
identity. -/
def safe_int (value : Option Int) : Option Int := value

/-- The five maps returned by `BaseLoader._build_lookup_maps`. -/
structure LookupMaps where
  driver_map : List (String × Int)
  team_map : List (String × Int)
  season_map : List (Int × Int)
  round_map : List ((Int × Int) × Int)
  session_map : List (Int × (Int × Int))
deriving DecidableEq, Repr

/-- `BaseLoader._build_lookup_maps`: natural-key → surrogate-id maps read
from the current warehouse state, scoped to the given season/round and
session type (`session_map` carries both the session id and its number). -/
def build_lookup_maps (db : DB) (season_year : Int) (round_num : Int)
    (session_type : String) : LookupMaps where
  driver_map := db.drivers.map (fun r => (r.reference, r.id))
  team_map := db.teams.map (fun r => (r.reference, r.id))
  season_map := (db.seasons.filter (fun r => r.year == season_year)).map (fun r => (r.year, r.id))
  round_map := db.rounds.filterMap (fun r =>
    match r.date with
    | some d =>
      if d.year == season_year && r.number == round_num then some ((d.year, r.number), r.id)
      else none
    | none => none)
  session_map := (db.sessions.filter (fun s => s.type == session_type)).map
    (fun s => (s.round_id, (s.id, s.number)))

/-- Python truthiness of a nullable integer: `None` and `0` are falsy. -/
def truthyInt : Option Int → Bool
  | none => false
  | some v => v != 0

end BaseLoader

/-- A psycopg2 connection over warehouse state `W`: the committed snapshot
and the in-transaction working state. -/
structure Conn (W : Type) where
  committed : W
  working : W
deriving DecidableEq, Repr

/-- `cursor.execute` of a mutating statement: acts on the working state. -/
def Conn.exec {W : Type} (c : Conn W) (f : W → W) : Conn W :=
  { c with working := f c.working }

/-- `connection.commit()`. -/
def Conn.commit {W : Type} (c : Conn W) : Conn W :=
  { c with committed := c.working }

/-- `connection.rollback()`. -/
def Conn.rollback {W : Type} (c : Conn W) : Conn W :=
  { c with working := c.committed }

namespace BaseLoader

/-- `BaseLoader.run`, generic over the entity's extract/transform/load.
`raw_zip` is the shared pre-fetched bulk payload, `raw_empty` is Python
truthiness of the raw payload, `load` returns the record count or the raised
error together with the warehouse state it leaves behind, and `duration` is
the wall-clock duration (external to the model).  Exceptions from the three
steps are caught; `complete_sync` records the failure when the log id is
truthy, and `run` returns `False`. -/
def run {W Raw Rec : Type} (db : DB) (wh : W) (entity_name : String) (now : ℚ)
    (raw_zip : Option Raw) (extract : Except String Raw) (raw_empty : Raw → Bool)
    (transform : Raw → Except String (List Rec))
    (load : List Rec → W → Except String Int × W)
    (year_arg : Option Int) (round_arg : Option Int) (duration : Int) :
    Bool × DB × W :=
  let log_id := (MetadataManager.start_sync db entity_name now).1
  let db1 := (MetadataManager.start_sync db entity_name now).2
  let fail := fun (msg : String) (dbf : DB) (whf : W) =>
    if log_id != 0 then
      (false,
       MetadataManager.complete_sync dbf entity_name log_id false 0 duration (some msg) none none now,
       whf)
    else (false, dbf, whf)
  match (match raw_zip with | some z => Except.ok z | none => extract) with
  | .error msg => fail msg db1 wh
  | .ok raw =>
    if raw_empty raw then
      (true, MetadataManager.complete_sync db1 entity_name log_id true 0 0 none none none now, wh)
    else
      match transform raw with
      | .error msg => fail msg db1 wh
      | .ok records =>
        if records.isEmpty then
          (true, MetadataManager.complete_sync db1 entity_name log_id true 0 duration none none none now, wh)
        else
          match load records wh with
          | (.error msg, wh2) => fail msg db1 wh2
          | (.ok count, wh2) =>
            (true,
             MetadataManager.complete_sync db1 entity_name log_id true count duration none year_arg round_arg now,
             wh2)

end BaseLoader

/-- Conflict test of a PostgreSQL unique index column pair under the default
NULLS DISTINCT semantics: two values collide only when both are non-NULL and
equal. -/
def sqlNullEq : Option Int → Option Int → Bool
  | some a, some b => a == b
  | _, _ => false

namespace QualifyingResultLoader

/-- One element of the `QualifyingResults` array of the raw payload. -/
structure Entry where
  driverId : Option String
  constructorId : Option String
  position : Option Int
  q1 : Option String
  q2 : Option String
  q3 : Option String
deriving DecidableEq, Repr

/-- One element of `MRData.RaceTable.Races`. -/
structure RaceInfo where
  season : Option Int
  round : Option Int
  qualifying_results : List Entry
deriving DecidableEq, Repr

/-- The raw qualifying payload (`MRData.RaceTable.Races`). -/
structure Raw where
  races : List RaceInfo
deriving DecidableEq, Repr

/-- A transformed qualifying record; identical in shape to a row of
`formula_one.qualifying_result`. -/
structure Record where
  season_id : Option Int
  round_id : Option Int
  last_session_id : Int
  driver_id : Option Int
  team_id : Option Int
  position : Int
  q1_time : Option String
  q1_time_milliseconds : Option Int
  q2_time : Option String
  q2_time_milliseconds : Option Int
  q3_time : Option String
  q3_time_milliseconds : Option Int
deriving DecidableEq, Repr

/-- `QualifyingResultLoader.transform`.  A missing session for the round
makes the Python subscription `session_map.get(round_id)['id']` raise a
`TypeError`; a result whose driver or constructor reference resolves to a
falsy id is skipped. -/
def transform (db : DB) (raw : Raw) : Except String (List Record) :=
  match raw.races with
  | [] => .ok []
  | race :: _ =>
    let season_year := race.season.getD 0
    let round_num := race.round.getD 0
    let lookup := BaseLoader.build_lookup_maps db season_year round_num "Q3"
    let season_id := lookup.season_map.lookup season_year
    let round_id := lookup.round_map.lookup (season_year, round_num)
    match round_id.bind (fun rid => lookup.session_map.lookup rid) with
    | none => .error "TypeError"
    | some (session_id, _) =>
      .ok (race.qualifying_results.foldr (fun result acc =>
        let driver_id := result.driverId.bind (fun r => lookup.driver_map.lookup r)
        let team_id := result.constructorId.bind (fun r => lookup.team_map.lookup r)
        if BaseLoader.truthyInt driver_id && BaseLoader.truthyInt team_id then
          { season_id := season_id, round_id := round_id, last_session_id := session_id,
            driver_id := driver_id, team_id := team_id,
            position := result.position.getD 0,
            q1_time := result.q1,
            q1_time_milliseconds := BaseLoader.convert_time_to_ms result.q1,
            q2_time := result.q2,
            q2_time_milliseconds := BaseLoader.convert_time_to_ms result.q2,
            q3_time := result.q3,
            q3_time_milliseconds := BaseLoader.convert_time_to_ms result.q3 } :: acc
        else acc) [])

/-- The `ON CONFLICT (season_id, round_id, driver_id)` collision test. -/
def keyConflict (row rec : Record) : Bool :=
  sqlNullEq row.season_id rec.season_id && sqlNullEq row.round_id rec.round_id &&
    sqlNullEq row.driver_id rec.driver_id

/-- The `DO UPDATE SET` column list: position and the six timing columns. -/
def updMut (rec row : Record) : Record :=
  { row with position := rec.position,
             q1_time := rec.q1_time, q1_time_milliseconds := rec.q1_time_milliseconds,
             q2_time := rec.q2_time, q2_time_milliseconds := rec.q2_time_milliseconds,
             q3_time := rec.q3_time, q3_time_milliseconds := rec.q3_time_milliseconds }

/-- One `INSERT ... ON CONFLICT ... DO UPDATE` statement against the
`qualifying_result` table. -/
def upsert (tbl : List Record) (rec : Record) : List Record :=
  if tbl.any (fun row => keyConflict row rec) then
    tbl.map (fun row => if keyConflict row rec then updMut rec row else row)
  else tbl ++ [rec]

/-- The statement loop of `QualifyingResultLoader.load`: each record is
upserted on the working state; a statement failure (parametrized by `fail`,
standing for whatever error the database raises) rolls the transaction back
and re-raises; reaching the end commits. -/
def loadGo (fail : Record → Option String) :
    List Record → Conn (List Record) → Int → Except String Int × Conn (List Record)
  | [], c, count => (.ok count, c.commit)
  | r :: rest, c, count =>
    match fail r with
    | some msg => (.error msg, c.rollback)
    | none => loadGo fail rest (c.exec (fun t => upsert t r)) (count + 1)

/-- `QualifyingResultLoader.load`. -/
def load (fail : Record → Option String) (records : List Record)
    (c : Conn (List Record)) : Except String Int × Conn (List Record) :=
  loadGo fail records c 0

end QualifyingResultLoader

namespace RaceResultLoader

/-- One element of the `Results` array of the raw payload. -/
structure Entry where
  driverId : Option String
  constructorId : Option String
  grid : Option Int
  position : Option Int
  positionText : Option String
  points : Option ℚ
  laps : Option Int
  status : Option String
  timeMillis : Option Int
  fastestLapRank : Option Int
  fastestLapLap : Option Int
  fastestLapTime : Option String
deriving DecidableEq, Repr

/-- One element of `MRData.RaceTable.Races`. -/
structure RaceInfo where
  season : Option Int
  round : Option Int
  results : List Entry
deriving DecidableEq, Repr

/-- The raw race-result payload. -/
structure Raw where
  races : List RaceInfo
deriving DecidableEq, Repr

/-- A transformed race-result record, shaped like a `race_result` row. -/
structure Record where
  season_id : Option Int
  round_id : Option Int
  session_id : Int
  driver_id : Option Int
  team_id : Option Int
  grid_position : Int
  position : Int
  position_text : Option String
  points : ℚ
  laps_completed : Int
  status : Option String
  race_time_milliseconds : Option Int
  fastest_lap_rank : Option Int
  fastest_lap_number : Option Int
  fastest_lap_time : Option String
  fastest_lap_milliseconds : Option Int
deriving DecidableEq, Repr

/-- `RaceResultLoader.transform`. -/
def transform (db : DB) (raw : Raw) : Except String (List Record) :=
  match raw.races with
  | [] => .ok []
  | race :: _ =>
    let season_year := race.season.getD 0
    let round_num := race.round.getD 0
    let lookup := BaseLoader.build_lookup_maps db season_year round_num "R"
    let season_id := lookup.season_map.lookup season_year
    let round_id := lookup.round_map.lookup (season_year, round_num)
    match round_id.bind (fun rid => lookup.session_map.lookup rid) with
    | none => .error "TypeError"
    | some (session_id, _) =>
      .ok (race.results.foldr (fun result acc =>
        let driver_id := result.driverId.bind (fun r => lookup.driver_map.lookup r)
        let team_id := result.constructorId.bind (fun r => lookup.team_map.lookup r)
        if BaseLoader.truthyInt driver_id && BaseLoader.truthyInt team_id then
          { season_id := season_id, round_id := round_id, session_id := session_id,
            driver_id := driver_id, team_id := team_id,
            grid_position := result.grid.getD 0,
            position := result.position.getD 0,
            position_text := result.positionText,
            points := result.points.getD 0,
            laps_completed := result.laps.getD 0,
            status := result.status,
            race_time_milliseconds := BaseLoader.safe_int result.timeMillis,
            fastest_lap_rank := BaseLoader.safe_int result.fastestLapRank,
            fastest_lap_number := BaseLoader.safe_int result.fastestLapLap,
            fastest_lap_time := result.fastestLapTime,
            fastest_lap_milliseconds := BaseLoader.convert_time_to_ms result.fastestLapTime } :: acc
        else acc) [])

/-- The `ON CONFLICT (season_id, round_id, driver_id)` collision test. -/
def keyConflict (row rec : Record) : Bool :=
  sqlNullEq row.season_id rec.season_id && sqlNullEq row.round_id rec.round_id &&
    sqlNullEq row.driver_id rec.driver_id

/-- The `DO UPDATE SET` column list of the race-result upsert. -/
def updMut (rec row : Record) : Record :=
  { row with position := rec.position, position_text := rec.position_text,
             points := rec.points, laps_completed := rec.laps_completed,
             status := rec.status,
             race_time_milliseconds := rec.race_time_milliseconds,
             fastest_lap_rank := rec.fastest_lap_rank,
             fastest_lap_number := rec.fastest_lap_number,
             fastest_lap_time := rec.fastest_lap_time,
             fastest_lap_milliseconds := rec.fastest_lap_milliseconds }

/-- One `INSERT ... ON CONFLICT ... DO UPDATE` statement against the
`race_result` table. -/
def upsert (tbl : List Record) (rec : Record) : List Record :=
  if tbl.any (fun row => keyConflict row rec) then
    tbl.map (fun row => if keyConflict row rec then updMut rec row else row)
  else tbl ++ [rec]

/-- The statement loop of `RaceResultLoader.load` (single transaction:
failure rolls back, completion commits). -/
def loadGo (fail : Record → Option String) :
    List Record → Conn (List Record) → Int → Except String Int × Conn (List Record)
  | [], c, count => (.ok count, c.commit)
  | r :: rest, c, count =>
    match fail r with
    | some msg => (.error msg, c.rollback)
    | none => loadGo fail rest (c.exec (fun t => upsert t r)) (count + 1)

/-- `RaceResultLoader.load`. -/
def load (fail : Record → Option String) (records : List Record)
    (c : Conn (List Record)) : Except String Int × Conn (List Record) :=
  loadGo fail records c 0

end RaceResultLoader

namespace SprintResultLoader

/-- One element of the `SprintResults` array of the raw payload. -/
structure Entry where
  driverId : Option String
  constructorId : Option String
  position : Option Int
  positionText : Option String
  points : Option ℚ
  grid : Option Int
  laps : Option Int
  status : Option String
  timeMillis : Option Int
deriving DecidableEq, Repr

/-- One element of `MRData.RaceTable.Races`. -/
structure RaceInfo where
  season : Option Int
  round : Option Int
  sprint_results : List Entry
deriving DecidableEq, Repr

/-- The raw sprint-result payload. -/
structure Raw where
  races : List RaceInfo
deriving DecidableEq, Repr

/-- A transformed sprint-result record, shaped like a `sprint_result` row. -/
structure Record where
  season_id : Option Int
  round_id : Option Int
  session_id : Int
  driver_id : Option Int
  team_id : Option Int
  position : Int
  position_text : Option String
  points : ℚ
  grid_position : Option Int
  laps_completed : Int
  status : Option String
  sprint_time_milliseconds : Option Int
deriving DecidableEq, Repr

/-- `SprintResultLoader.transform` (session type `SR`). -/
def transform (db : DB) (raw : Raw) : Except String (List Record) :=
  match raw.races with
  | [] => .ok []
  | race :: _ =>
    let season_year := race.season.getD 0
    let round_num := race.round.getD 0
    let lookup := BaseLoader.build_lookup_maps db season_year round_num "SR"
    let season_id := lookup.season_map.lookup season_year
    let round_id := lookup.round_map.lookup (season_year, round_num)
    match round_id.bind (fun rid => lookup.session_map.lookup rid) with
    | none => .error "TypeError"
    | some (session_id, _) =>
      .ok (race.sprint_results.foldr (fun result acc =>
        let driver_id := result.driverId.bind (fun r => lookup.driver_map.lookup r)
        let team_id := result.constructorId.bind (fun r => lookup.team_map.lookup r)
        if BaseLoader.truthyInt driver_id && BaseLoader.truthyInt team_id then
          { season_id := season_id, round_id := round_id, session_id := session_id,
            driver_id := driver_id, team_id := team_id,
            position := result.position.getD 0,
            position_text := result.positionText,
            points := result.points.getD 0,
            grid_position := result.grid,
            laps_completed := result.laps.getD 0,
            status := result.status,
            sprint_time_milliseconds := result.timeMillis } :: acc
        else acc) [])

end SprintResultLoader

namespace DriverChampionshipLoader

/-- One element of the `DriverStandings` array. -/
structure Standing where
  driverId : Option String
  position : Option Int
  points : Option ℚ
  wins : Option Int
deriving DecidableEq, Repr

/-- One element of `MRData.StandingsTable.StandingsLists`; `none` models an
empty JSON object there (falsy in Python). -/
structure StandingsList where
  season : Option Int
  round : Option Int
  driver_standings : List Standing
deriving DecidableEq, Repr

/-- The raw driver-standings payload. -/
structure Raw where
  standings_lists : List (Option StandingsList)
deriving DecidableEq, Repr

/-- A transformed driver-championship record, shaped like a
`driver_championship` row. -/
structure Record where
  season_id : Option Int
  round_id : Option Int
  session_id : Int
  driver_id : Option Int
  round_number : Int
  session_number : Int
  year : Int
  position : Int
  points : ℚ
  win_count : Int
deriving DecidableEq, Repr

/-- `DriverChampionshipLoader.transform`.  The source subscripts
`StandingsLists[0]` before the emptiness check, so an empty list raises an
`IndexError`; an empty (falsy) first element returns no records.  A standing
whose driver reference is missing from the lookup map is NOT skipped: the
record is emitted with a null `driver_id`. -/
def transform (db : DB) (raw : Raw) : Except String (List Record) :=
  match raw.standings_lists with
  | [] => .error "IndexError"
  | none :: _ => .ok []
  | some sl :: _ =>
    let season_year := sl.season.getD 0
    let round_num := sl.round.getD 0
    let lookup := BaseLoader.build_lookup_maps db season_year round_num "R"
    let season_id := lookup.season_map.lookup season_year
    let round_id := lookup.round_map.lookup (season_year, round_num)
    match round_id.bind (fun rid => lookup.session_map.lookup rid) with
    | none => .error "TypeError"
    | some (session_id, session_num) =>
      .ok (sl.driver_standings.map (fun standing =>
        let driver_ref := standing.driverId.getD ""
        let driver_id := lookup.driver_map.lookup driver_ref
        { season_id := season_id, round_id := round_id, session_id := session_id,
          driver_id := driver_id,
          round_number := round_num, session_number := session_num,
          year := season_year,
          position := standing.position.getD 0,
          points := standing.points.getD 0,
          win_count := standing.wins.getD 0 }))

end DriverChampionshipLoader

namespace PreSeasonLoader

/-- A row of a pre-season reference table: the `id` column (the only column
the diff-load logic inspects) plus the remaining columns, collapsed into one
opaque payload field. -/
structure Row where
  id : Int
  payload : String
deriving DecidableEq, Repr

/-- One `INSERT ... ON CONFLICT (id) DO NOTHING` statement. -/
def insert_ignore (tbl : List Row) (row : Row) : List Row :=
  if tbl.any (fun t => t.id == row.id) then tbl else tbl ++ [row]

/-- `PreSeasonLoader.load`: the append-only diff.  Returns the count
(`len(df) - current row count`, which the source returns even when
non-positive), the table after the inserts, and the identifier sequence
value (`setval` to `COALESCE(MAX(id), 0)` runs only when rows were
inserted). -/
def load (tbl : List Row) (seq : Int) (incoming : List Row) : Int × List Row × Int :=
  let count : Int := (incoming.length : Int) - (tbl.length : Int)
  if 0 < count then
    let diff := incoming.drop (incoming.length - count.toNat)
    let tbl2 := diff.foldl insert_ignore tbl
    let seq2 := match MetadataManager.sqlMax (tbl2.map (fun r => r.id)) with
      | none => 0
      | some v => v
    (count, tbl2, seq2)
  else (count, tbl, seq)

end PreSeasonLoader

/-! Spec-side predicates (stated from the specification's words, for the
refinement claims comparing `should_load` against the spec's description)
and concrete fixtures used by witnesses and counterexamples. -/

/-- The event predicate the spec states for post-race `should_load`: the
season's schedule contains an event dated at least `buffer_days = 3` days
before the current date whose date is strictly after `last_sync` minus one
day. -/
def spec_race_event (db : DB) (season : Int) (today : Int) (last_sync : ℚ) : Prop :=
  ∃ r ∈ db.rounds, ∃ d : CalDate, r.date = some d ∧ d.year = season ∧
    d.day ≤ today - 3 ∧ ((d.day : ℚ) > last_sync - 1)

/-- The sprint variant of `spec_race_event`: only events having a sprint
session (`SR`) are counted. -/
def spec_sprint_event (db : DB) (season : Int) (today : Int) (last_sync : ℚ) : Prop :=
  ∃ r ∈ db.rounds, (∃ s ∈ db.sessions, s.type = "SR" ∧ s.round_id = r.id) ∧
    ∃ d : CalDate, r.date = some d ∧ d.year = season ∧
      d.day ≤ today - 3 ∧ ((d.day : ℚ) > last_sync - 1)

/-- A warehouse with no sync history (fixture). -/
def emptyDB : DB :=
  { sync_status := [], sync_log := [], next_log_id := 1,
    rounds := [], sessions := [], drivers := [], teams := [], seasons := [] }

/-- Fixture for the round-advancement witness: `driver_championship` synced
up to round 5 of 2024, with a 24-round 2024 calendar. -/
def roundsDB : DB :=
  { sync_status := [⟨"driver_championship", "success", 0, some 0, some 2024, some 5, 100, none⟩],
    sync_log := [], next_log_id := 2,
    rounds := [⟨1, 24, some ⟨2024, 1000⟩⟩],
    sessions := [], drivers := [], teams := [], seasons := [] }

/-- Fixture for the post-race `should_load` witness: `race_result` last
synced at timestamp 50, and a 2024 round dated day 100 (today is day 200,
so the event cleared the 3-day buffer and postdates the sync). -/
def postRaceDB : DB :=
  { sync_status := [⟨"race_result", "success", 50, some 50, some 2024, some 1, 20, none⟩],
    sync_log := [], next_log_id := 2,
    rounds := [⟨1, 1, some ⟨2024, 100⟩⟩],
    sessions := [⟨9, 1, "SR", 1⟩], drivers := [], teams := [], seasons := [] }

/-- Fixture warehouse for the transform claims: season 2024 round 3 with a
race session, one known driver and one known team. -/
def lookupDB : DB :=
  { sync_status := [], sync_log := [], next_log_id := 1,
    rounds := [⟨7, 3, some ⟨2024, 100⟩⟩],
    sessions := [⟨20, 7, "R", 5⟩, ⟨21, 7, "SR", 2⟩, ⟨22, 7, "Q3", 3⟩],
    drivers := [⟨"max", 1⟩], teams := [⟨"rb", 2⟩], seasons := [⟨2024, 10⟩] }

/-- A driver-standings payload whose only standing references the unknown
driver code `ghost`. -/
def ghostStandingsRaw : DriverChampionshipLoader.Raw :=
  ⟨[some ⟨some 2024, some 3, [⟨some "ghost", some 1, some 10, some 0⟩]⟩]⟩

/-- A race-result payload whose only result references the known driver and
team of `lookupDB`. -/
def knownRaceRaw : RaceResultLoader.Raw :=
  ⟨[⟨some 2024, some 3,
     [{ driverId := some "max", constructorId := some "rb", grid := some 1,
        position := some 1, positionText := some "1", points := some 25,
        laps := some 57, status := some "Finished", timeMillis := some 5400000,
        fastestLapRank := some 1, fastestLapLap := some 40,
        fastestLapTime := some "1:23.456" }]⟩]⟩

/-- A qualifying record whose natural key is fully populated (fixture). -/
def qualiRecA : QualifyingResultLoader.Record :=
  { season_id := some 10, round_id := some 7, last_session_id := 22,
    driver_id := some 1, team_id := some 2, position := 1,
    q1_time := some "1:23.456", q1_time_milliseconds := some 83456,
    q2_time := none, q2_time_milliseconds := none,
    q3_time := none, q3_time_milliseconds := none }

/-- A qualifying record with a NULL `season_id` in its natural key
(fixture for the null-key counterexample). -/
def qualiRecNullKey : QualifyingResultLoader.Record :=
  { season_id := none, round_id := some 7, last_session_id := 22,
    driver_id := some 1, team_id := some 2, position := 1,
    q1_time := none, q1_time_milliseconds := none,
    q2_time := none, q2_time_milliseconds := none,
    q3_time := none, q3_time_milliseconds := none }

/-- A race-result record used by the rollback witness. -/
def raceRecA : RaceResultLoader.Record :=
  { season_id := some 10, round_id := some 7, session_id := 20,
    driver_id := some 1, team_id := some 2, grid_position := 1, position := 1,
    position_text := some "1", points := 25, laps_completed := 57,
    status := some "Finished", race_time_milliseconds := some 5400000,
    fastest_lap_rank := some 1, fastest_lap_number := some 40,
    fastest_lap_time := some "1:23.456", fastest_lap_milliseconds := some 83456 }

/-- Pre-season fixture rows. -/
def psRows : List PreSeasonLoader.Row :=
  [⟨1, "a"⟩, ⟨2, "b"⟩, ⟨3, "c"⟩]

/-- A qualifying payload carrying only `Q1` and `Q2` times (no `Q3` block),
referencing the known driver and team of `lookupDB`. -/
def q1q2Raw : QualifyingResultLoader.Raw :=
  ⟨[⟨some 2024, some 3,
     [{ driverId := some "max", constructorId := some "rb", position := some 1,
        q1 := some "1:23.456", q2 := some "1:24.000", q3 := none }]⟩]⟩

/-- Proof infrastructure for the upsert-idempotence analysis: the natural-key
triple of a qualifying row, defined when all three key columns are
non-null. -/
def rowKey? (r : QualifyingResultLoader.Record) : Option (Int × Int × Int) :=
  match r.season_id, r.round_id, r.driver_id with
  | some a, some b, some c => some (a, b, c)
  | _, _, _ => none

/-- The last record of a batch touching a given key (the one whose mutable
columns survive a replay). -/
def lastTouch (b : List QualifyingResultLoader.Record) (k : Int × Int × Int) :
    Option QualifyingResultLoader.Record :=
  match b with
  | [] => none
  | r :: rest =>
    match lastTouch rest k with
    | some r2 => some r2
    | none => if rowKey? r = some k then some r else none

/-- The per-row rewrite that replaying a batch performs on a table whose
keys already cover the batch. -/
def replayFun (b : List QualifyingResultLoader.Record)
    (row : QualifyingResultLoader.Record) : QualifyingResultLoader.Record :=
  match rowKey? row with
  | none => row
  | some k =>
    match lastTouch b k with
    | some rec => QualifyingResultLoader.updMut rec row
    | none => row

/-- Key-presence test on a qualifying table. -/
def containsKey (t : List QualifyingResultLoader.Record) (k : Int × Int × Int) : Bool :=
  t.any (fun row => rowKey? row == some k)

/-! Helper lemmas (shared; not claim theorems). -/

theorem pickLatest_ne_none (f : RoundRow → Int) (r : RoundRow) (t : List RoundRow) :
    MetadataManager.pickLatest f (r :: t) ≠ none := by
  simp only [MetadataManager.pickLatest]
  split
  · simp
  · split <;> simp

theorem pickLatest_mem (f : RoundRow → Int) {l : List RoundRow} {a : RoundRow}
    (h : MetadataManager.pickLatest f l = some a) : a ∈ l := by
  induction l with
  | nil => simp [MetadataManager.pickLatest] at h
  | cons r t ih =>
    simp only [MetadataManager.pickLatest] at h
    split at h
    · injection h with h
      subst h
      exact List.mem_cons_self r t
    · rename_i b heq
      split at h
      · injection h with h
        subst h
        exact List.mem_cons_self r t
      · injection h with h
        subst h
        exact List.mem_cons_of_mem r (ih heq)

theorem pickLatest_max (f : RoundRow → Int) {l : List RoundRow} :
    ∀ {a : RoundRow}, MetadataManager.pickLatest f l = some a → ∀ x ∈ l, f x ≤ f a := by
  induction l with
  | nil => intro a h; simp [MetadataManager.pickLatest] at h
  | cons r t ih =>
    intro a h x hx
    simp only [MetadataManager.pickLatest] at h
    split at h
    · rename_i heq
      injection h with h
      have ht : t = [] := by
        cases t with
        | nil => rfl
        | cons y ys => exact absurd heq (pickLatest_ne_none f y ys)
      subst ht
      rcases List.mem_singleton.mp hx with rfl
      exact h ▸ le_refl _
    · rename_i b heq
      split at h
      · rename_i hf
        injection h with h
        subst h
        rcases List.mem_cons.mp hx with rfl | hx
        · exact le_refl _
        · exact le_of_lt (lt_of_le_of_lt (ih heq x hx) hf)
      · rename_i hf
        injection h with h
        subst h
        rcases List.mem_cons.mp hx with rfl | hx
        · exact le_of_not_lt hf
        · exact ih heq x hx

theorem latest_gt_iff (l : List RoundRow) (q : ℚ) :
    (match MetadataManager.pickLatest MetadataManager.roundDay l with
     | none => false
     | some r => decide ((MetadataManager.roundDay r : ℚ) > q)) = true ↔
      ∃ r ∈ l, ((MetadataManager.roundDay r : ℚ) > q) := by
  cases h : MetadataManager.pickLatest MetadataManager.roundDay l with
  | none =>
    have hl : l = [] := by
      cases l with
      | nil => rfl
      | cons y ys => exact absurd h (pickLatest_ne_none _ y ys)
    subst hl
    simp
  | some a =>
    simp only [decide_eq_true_eq]
    constructor
    · intro hgt
      exact ⟨a, pickLatest_mem _ h, hgt⟩
    · rintro ⟨r, hr, hgt⟩
      have hle : MetadataManager.roundDay r ≤ MetadataManager.roundDay a :=
        pickLatest_max _ h r hr
      have hleq : (MetadataManager.roundDay r : ℚ) ≤ (MetadataManager.roundDay a : ℚ) := by
        exact_mod_cast hle
      linarith

theorem was_race_iff (db : DB) (season today : Int) (ls : ℚ) :
    MetadataManager.was_there_race_since_last_sync db season ls today 3 = true ↔
      spec_race_event db season today ls := by
  simp only [MetadataManager.was_there_race_since_last_sync]
  rw [latest_gt_iff]
  unfold spec_race_event
  constructor
  · rintro ⟨r, hr, hgt⟩
    rw [List.mem_filter] at hr
    obtain ⟨hmem, hp⟩ := hr
    cases hd : r.date with
    | none => rw [hd] at hp; simp at hp
    | some d =>
      rw [hd] at hp
      simp only [Bool.and_eq_true, beq_iff_eq, decide_eq_true_eq] at hp
      have hday : MetadataManager.roundDay r = d.day := by
        simp [MetadataManager.roundDay, hd]
      exact ⟨r, hmem, d, hd, hp.1, hp.2, by rwa [hday] at hgt⟩
  · rintro ⟨r, hmem, d, hd, hy, hday, hq⟩
    refine ⟨r, ?_, ?_⟩
    · rw [List.mem_filter]
      refine ⟨hmem, ?_⟩
      rw [hd]
      simp [hy, hday]
    · have hrd : MetadataManager.roundDay r = d.day := by
        simp [MetadataManager.roundDay, hd]
      rwa [hrd]

theorem was_sprint_iff (db : DB) (season today : Int) (ls : ℚ) :
    MetadataManager.was_there_sprint_since_last_sync db season ls today 3 = true ↔
      spec_sprint_event db season today ls := by
  simp only [MetadataManager.was_there_sprint_since_last_sync]
  rw [latest_gt_iff]
  unfold spec_sprint_event
  constructor
  · rintro ⟨r, hr, hgt⟩
    rw [List.mem_filter] at hr
    obtain ⟨hjoin, hp⟩ := hr
    rw [List.mem_flatMap] at hjoin
    obtain ⟨s, hs, hrf⟩ := hjoin
    rw [List.mem_filter] at hs
    rw [List.mem_filter] at hrf
    cases hd : r.date with
    | none => rw [hd] at hp; simp at hp
    | some d =>
      rw [hd] at hp
      simp only [Bool.and_eq_true, beq_iff_eq, decide_eq_true_eq] at hp
      have hday : MetadataManager.roundDay r = d.day := by
        simp [MetadataManager.roundDay, hd]
      refine ⟨r, hrf.1, ⟨s, hs.1, by simpa using hs.2, (beq_iff_eq.mp hrf.2).symm⟩,
        d, hd, hp.1, hp.2, by rwa [hday] at hgt⟩
  · rintro ⟨r, hmem, ⟨s, hs, hty, hrid⟩, d, hd, hy, hday, hq⟩
    refine ⟨r, ?_, ?_⟩
    · rw [List.mem_filter]
      refine ⟨?_, by rw [hd]; simp [hy, hday]⟩
      rw [List.mem_flatMap]
      refine ⟨s, ?_, ?_⟩
      · rw [List.mem_filter]
        exact ⟨hs, by simp [hty]⟩
      · rw [List.mem_filter]
        exact ⟨hmem, by simp [hrid]⟩
    · have hrd : MetadataManager.roundDay r = d.day := by
        simp [MetadataManager.roundDay, hd]
      rwa [hrd]

/-! Claim theorems. -/

/-- Claim C10: `complete_sync` with `success = false` modifies only the
watermark's status, last-updated timestamp and error message; the recorded
last season year, last round number, cumulative total record count and last
successful sync timestamp are all unchanged.  The first conjunct gives the
exact shape of the updated `sync_status` table; the second restates the
frame condition as an equality of the projections onto the four untouched
fields. -/
theorem C10_failed_complete_sync_frame (db : DB) (e : String) (log_id : Int)
    (records_affected duration_seconds : Int) (err : Option String)
    (wm_y wm_r : Option Int) (now : ℚ) :
    (MetadataManager.complete_sync db e log_id false records_affected duration_seconds
        err wm_y wm_r now).sync_status =
      db.sync_status.map (fun r =>
        if r.entity_name == e then
          { r with status := "failed", last_updated := now, error_message := err }
        else r) ∧
    (MetadataManager.complete_sync db e log_id false records_affected duration_seconds
        err wm_y wm_r now).sync_status.map (fun r =>
          (r.last_season_year, r.last_round_number, r.total_records, r.last_successful_sync)) =
      db.sync_status.map (fun r =>
          (r.last_season_year, r.last_round_number, r.total_records, r.last_successful_sync)) := by
  refine ⟨rfl, ?_⟩
  show (db.sync_status.map _).map _ = _
  rw [List.map_map]
  apply List.map_congr_left
  intro r _
  by_cases h : r.entity_name = e
  · simp [Function.comp, h]
  · simp [Function.comp, h]

/-- Claim C4: for every configured entity, `should_load` returns true
whenever the watermark has never been set (no recorded last-sync
timestamp), regardless of load strategy. -/
theorem C4_never_synced_loads (db : DB) (e : String) (season today : Int) (cfg : TableConfig)
    (hc : TABLES e = some cfg)
    (hs : (MetadataManager.get_watermark db e).last_sync = none) :
    MetadataManager.should_load db e season today = true := by
  simp only [MetadataManager.should_load, hc, hs]

/-- Witness for C4 at a concrete never-synced entity. -/
theorem C4_witness : MetadataManager.should_load emptyDB "circuit" 2024 0 = true :=
  C4_never_synced_loads emptyDB "circuit" 2024 0 ⟨"circuit", .pre_season⟩ rfl rfl

/-- Claim C3: `get_next_round_to_load` returns 1 when the entity was never
synced (no recorded round) or its recorded season is behind the given
season — the season-mismatch branch takes precedence, so this holds whatever
the schedule says; otherwise it returns `last_round + 1` when the season's
schedule has a round numbered greater than `last_round`, and `None` when
`last_round` equals the season's maximum round number. -/
theorem C3_next_round (db : DB) (e : String) (season : Int) :
    ((MetadataManager.get_watermark db e).round_number = none →
      MetadataManager.get_next_round_to_load db e season = .ok (some 1)) ∧
    (∀ lr ls, (MetadataManager.get_watermark db e).round_number = some lr →
      (MetadataManager.get_watermark db e).season_year = some ls →
      ((ls < season → MetadataManager.get_next_round_to_load db e season = .ok (some 1)) ∧
       (season ≤ ls → lr < MetadataManager.max_round_of_season db season →
          MetadataManager.get_next_round_to_load db e season = .ok (some (lr + 1))) ∧
       (season ≤ ls → lr = MetadataManager.max_round_of_season db season →
          MetadataManager.get_next_round_to_load db e season = .ok none))) := by
  constructor
  · intro h
    simp only [MetadataManager.get_next_round_to_load, h]
  · intro lr ls hr hs
    refine ⟨?_, ?_, ?_⟩
    · intro hlt
      simp only [MetadataManager.get_next_round_to_load, hr, hs]
      rw [if_pos hlt]
    · intro hge hround
      simp only [MetadataManager.get_next_round_to_load, hr, hs]
      rw [if_neg (not_lt.mpr hge), if_pos hround]
    · intro hge heq
      simp only [MetadataManager.get_next_round_to_load, hr, hs]
      rw [if_neg (not_lt.mpr hge), if_neg (by omega)]

/-- Witness for C3: after syncing round 5 of a 24-round 2024 season, the
next round to load is 6. -/
theorem C3_witness :
    MetadataManager.get_next_round_to_load roundsDB "driver_championship" 2024 = .ok (some 6) := by
  have h := (C3_next_round roundsDB "driver_championship" 2024).2 5 2024 (by rfl) (by rfl)
  exact h.2.1 (by decide) (by decide)

/-- Claim C2: for every post-race-strategy entity with a non-null last-sync
timestamp, `should_load` is true exactly when the season's schedule contains
an event dated at least 3 days (the default buffer) before the current date
whose date is strictly after `last_sync` minus one day; events inside the
buffer window are not counted, and for the `sprint_result` entity only
events having a sprint session count. -/
theorem C2_post_race_should_load (db : DB) (e : String) (season today : Int)
    (cfg : TableConfig) (ls : ℚ)
    (hc : TABLES e = some cfg) (hstrat : cfg.strategy = .post_race)
    (hls : (MetadataManager.get_watermark db e).last_sync = some ls) :
    (e ≠ "sprint_result" →
      (MetadataManager.should_load db e season today = true ↔
        spec_race_event db season today ls)) ∧
    (e = "sprint_result" →
      (MetadataManager.should_load db e season today = true ↔
        spec_sprint_event db season today ls)) := by
  constructor
  · intro hne
    have hb : (e == "sprint_result") = false := by
      simp [hne]
    simp only [MetadataManager.should_load, hc, hls, hstrat, hb]
    exact was_race_iff db season today ls
  · intro heq
    subst heq
    simp only [MetadataManager.should_load, hc, hls, hstrat]
    simp only [beq_self_eq_true, if_true]
    exact was_sprint_iff db season today ls

/-- Witness for C2: a race dated day 100 with today = 200 and last sync at
timestamp 50 makes `should_load` true for `race_result`. -/
theorem C2_witness : MetadataManager.should_load postRaceDB "race_result" 2024 200 = true := by
  refine ((C2_post_race_should_load postRaceDB "race_result" 2024 200
    ⟨"sprint_result", .post_race⟩ 50 rfl rfl (by rfl)).1 (by decide)).mpr ?_
  exact ⟨⟨1, 1, some ⟨2024, 100⟩⟩, by decide, ⟨2024, 100⟩, rfl, rfl, by decide, by norm_num⟩

/-- The sync-log row produced by a failed run: `start_sync` appends the
`running` row with the current sequence id, and the failing `complete_sync`
rewrites it to `failed` with the captured error text. -/
theorem complete_sync_fail_log_mem (db : DB) (e : String) (now : ℚ) (duration : Int)
    (msg : String) :
    ∃ row ∈ (MetadataManager.complete_sync (MetadataManager.start_sync db e now).2 e
        (MetadataManager.start_sync db e now).1 false 0 duration (some msg) none none now).sync_log,
      row.id = db.next_log_id ∧ row.status = "failed" ∧ row.error_message = some msg := by
  simp only [MetadataManager.complete_sync, MetadataManager.start_sync]
  refine ⟨_, List.mem_map_of_mem _
    (List.mem_append_right db.sync_log
      (List.mem_singleton_self (⟨db.next_log_id, e, "running", now, 0, 0, none⟩ : SyncLogRow))),
    ?_⟩
  simp

/-- Generic failure behaviour of `BaseLoader.run`: when the effective
extract errors, or the transform errors on a non-empty payload, or the load
errors on a non-empty record list, `run` returns false and the sync-log row
opened for this run carries status `failed` and the error message. -/
theorem run_fail_spec {W Raw Rec : Type} (db : DB) (wh : W) (entity_name : String) (now : ℚ)
    (raw_zip : Option Raw) (extract : Except String Raw) (raw_empty : Raw → Bool)
    (transform : Raw → Except String (List Rec))
    (load : List Rec → W → Except String Int × W)
    (year_arg round_arg : Option Int) (duration : Int) (msg : String)
    (hlog : db.next_log_id ≠ 0)
    (hfail :
      (match raw_zip with | some z => Except.ok z | none => extract) = .error msg ∨
      (∃ raw, (match raw_zip with | some z => Except.ok z | none => extract) = .ok raw ∧
        raw_empty raw = false ∧ transform raw = .error msg) ∨
      (∃ raw recs wh2,
        (match raw_zip with | some z => Except.ok z | none => extract) = .ok raw ∧
        raw_empty raw = false ∧ transform raw = .ok recs ∧ recs.isEmpty = false ∧
        load recs wh = (.error msg, wh2))) :
    (BaseLoader.run db wh entity_name now raw_zip extract raw_empty transform load
        year_arg round_arg duration).1 = false ∧
    ∃ row ∈ (BaseLoader.run db wh entity_name now raw_zip extract raw_empty transform load
        year_arg round_arg duration).2.1.sync_log,
      row.id = db.next_log_id ∧ row.status = "failed" ∧ row.error_message = some msg := by
  have hfst : (MetadataManager.start_sync db entity_name now).1 = db.next_log_id := rfl
  have hbne : (db.next_log_id != 0) = true := bne_iff_ne.mpr hlog
  rcases hfail with h1 | ⟨raw, h1, h2, h3⟩ | ⟨raw, recs, wh2, h1, h2, h3, h4, h5⟩
  · simp only [BaseLoader.run, h1, hfst, hbne, if_true]
    exact ⟨by simp, complete_sync_fail_log_mem db entity_name now duration msg⟩
  · simp only [BaseLoader.run, h1, h2, h3, hfst, hbne, if_true, Bool.false_eq_true, if_false]
    exact ⟨by simp, complete_sync_fail_log_mem db entity_name now duration msg⟩
  · simp only [BaseLoader.run, h1, h2, h3, h4, h5, hfst, hbne, if_true, Bool.false_eq_true,
      if_false]
    exact ⟨by simp, complete_sync_fail_log_mem db entity_name now duration msg⟩

/-- Claim C5: for every loader and every input, `run` returns false and
records a failed sync carrying the exception message whenever extract,
transform or load raises; the exception is swallowed at the `run` boundary
(the embedded `run` is a total function — the caller only ever sees the
boolean and the persisted log). -/
theorem C5_run_swallows_failures {W Raw Rec : Type} (db : DB) (wh : W) (entity_name : String)
    (now : ℚ) (raw_zip : Option Raw) (extract : Except String Raw) (raw_empty : Raw → Bool)
    (transform : Raw → Except String (List Rec))
    (load : List Rec → W → Except String Int × W)
    (year_arg round_arg : Option Int) (duration : Int) (msg : String)
    (hlog : db.next_log_id ≠ 0)
    (hfail :
      (match raw_zip with | some z => Except.ok z | none => extract) = .error msg ∨
      (∃ raw, (match raw_zip with | some z => Except.ok z | none => extract) = .ok raw ∧
        raw_empty raw = false ∧ transform raw = .error msg) ∨
      (∃ raw recs wh2,
        (match raw_zip with | some z => Except.ok z | none => extract) = .ok raw ∧
        raw_empty raw = false ∧ transform raw = .ok recs ∧ recs.isEmpty = false ∧
        load recs wh = (.error msg, wh2))) :
    (BaseLoader.run db wh entity_name now raw_zip extract raw_empty transform load
        year_arg round_arg duration).1 = false ∧
    ∃ row ∈ (BaseLoader.run db wh entity_name now raw_zip extract raw_empty transform load
        year_arg round_arg duration).2.1.sync_log,
      row.id = db.next_log_id ∧ row.status = "failed" ∧ row.error_message = some msg :=
  run_fail_spec db wh entity_name now raw_zip extract raw_empty transform load
    year_arg round_arg duration msg hlog hfail

/-- Witness for C5: a failing extract on a fresh database. -/
theorem C5_witness :
    (BaseLoader.run emptyDB () "circuit" 0 (none : Option Unit) (Except.error "boom")
        (fun _ => true) (fun _ => Except.ok ([] : List Unit))
        (fun _ w => (Except.ok 0, w)) none none 0).1 = false ∧
    ∃ row ∈ (BaseLoader.run emptyDB () "circuit" 0 (none : Option Unit) (Except.error "boom")
        (fun _ => true) (fun _ => Except.ok ([] : List Unit))
        (fun _ w => (Except.ok 0, w)) none none 0).2.1.sync_log,
      row.id = emptyDB.next_log_id ∧ row.status = "failed" ∧ row.error_message = some "boom" :=
  C5_run_swallows_failures emptyDB () "circuit" 0 none (Except.error "boom")
    (fun _ => true) (fun _ => Except.ok []) (fun _ w => (Except.ok 0, w)) none none 0 "boom"
    (by decide) (Or.inl rfl)

/-- A failing statement inside the race-result load loop rolls the
transaction back to the committed snapshot: nothing before the failing
record was committed, so the connection ends at the state it started
from. -/
theorem race_loadGo_error (fail : RaceResultLoader.Record → Option String)
    (post : List RaceResultLoader.Record) (rbad : RaceResultLoader.Record) (msg : String)
    (hbad : fail rbad = some msg) :
    ∀ (pre : List RaceResultLoader.Record) (c : Conn (List RaceResultLoader.Record))
      (count : Int), (∀ r ∈ pre, fail r = none) →
      RaceResultLoader.loadGo fail (pre ++ rbad :: post) c count =
        (.error msg, ⟨c.committed, c.committed⟩) := by
  intro pre
  induction pre with
  | nil =>
    intro c count _
    simp [RaceResultLoader.loadGo, hbad, Conn.rollback]
  | cons p rest ih =>
    intro c count h
    have hp : fail p = none := h p (List.mem_cons_self p rest)
    have hrest : ∀ r ∈ rest, fail r = none := fun r hr => h r (List.mem_cons_of_mem p hr)
    simp only [List.cons_append, RaceResultLoader.loadGo, hp]
    exact ih (c.exec fun t => RaceResultLoader.upsert t p) (count + 1) hrest

/-- Claim C6: a race-result `load` that fails partway through a batch leaves
the warehouse unchanged — the transaction rolls back every row of the batch,
so a connection that starts clean at table `t` ends clean at table `t` —
and the enclosing `run` records the failure in the sync log with status
`failed` and the captured error text. -/
theorem C6_race_load_rollback (db : DB) (t : List RaceResultLoader.Record)
    (fail : RaceResultLoader.Record → Option String)
    (pre post : List RaceResultLoader.Record) (rbad : RaceResultLoader.Record) (msg : String)
    (now : ℚ) (year_arg round_arg : Option Int) (duration : Int)
    (hpre : ∀ r ∈ pre, fail r = none) (hbad : fail rbad = some msg)
    (hlog : db.next_log_id ≠ 0) :
    RaceResultLoader.load fail (pre ++ rbad :: post) (Conn.mk t t) =
      (.error msg, Conn.mk t t) ∧
    ((BaseLoader.run db (Conn.mk t t) "race_result" now (none : Option Unit) (Except.ok ())
        (fun _ => false) (fun _ => Except.ok (pre ++ rbad :: post))
        (RaceResultLoader.load fail) year_arg round_arg duration).1 = false ∧
      ∃ row ∈ (BaseLoader.run db (Conn.mk t t) "race_result" now (none : Option Unit)
          (Except.ok ()) (fun _ => false) (fun _ => Except.ok (pre ++ rbad :: post))
          (RaceResultLoader.load fail) year_arg round_arg duration).2.1.sync_log,
        row.id = db.next_log_id ∧ row.status = "failed" ∧ row.error_message = some msg) := by
  have hload : RaceResultLoader.load fail (pre ++ rbad :: post) (Conn.mk t t) =
      (.error msg, Conn.mk t t) :=
    race_loadGo_error fail post rbad msg hbad pre (Conn.mk t t) 0 hpre
  refine ⟨hload, ?_⟩
  exact run_fail_spec db (Conn.mk t t) "race_result" now none (Except.ok ())
    (fun _ => false) (fun _ => Except.ok (pre ++ rbad :: post))
    (RaceResultLoader.load fail) year_arg round_arg duration msg hlog
    (Or.inr (Or.inr ⟨(), pre ++ rbad :: post, Conn.mk t t, rfl, rfl, rfl, by simp, hload⟩))

/-- Witness for C6: a single-record batch whose insert fails, run against an
empty warehouse. -/
theorem C6_witness :
    RaceResultLoader.load (fun _ => some "dup") ([] ++ raceRecA :: []) (Conn.mk [] []) =
      (.error "dup", Conn.mk [] []) ∧
    ((BaseLoader.run emptyDB (Conn.mk [] []) "race_result" 0 (none : Option Unit)
        (Except.ok ()) (fun _ => false) (fun _ => Except.ok ([] ++ raceRecA :: []))
        (RaceResultLoader.load (fun _ => some "dup")) none none 0).1 = false ∧
      ∃ row ∈ (BaseLoader.run emptyDB (Conn.mk [] []) "race_result" 0 (none : Option Unit)
          (Except.ok ()) (fun _ => false) (fun _ => Except.ok ([] ++ raceRecA :: []))
          (RaceResultLoader.load (fun _ => some "dup")) none none 0).2.1.sync_log,
        row.id = emptyDB.next_log_id ∧ row.status = "failed" ∧
          row.error_message = some "dup") :=
  C6_race_load_rollback emptyDB [] (fun _ => some "dup") [] [] raceRecA "dup" 0 none none 0
    (by simp) rfl (by decide)

/-- Membership in a filtered fold of the shape used by the result-loader
transforms: every element of the output comes from an input element whose
guard held. -/
theorem foldr_skip_mem {α β : Type} (cond : α → Bool) (mk : α → β) (l : List α) (rec : β)
    (h : rec ∈ l.foldr (fun x acc => if cond x then mk x :: acc else acc) []) :
    ∃ x ∈ l, cond x = true ∧ rec = mk x := by
  induction l with
  | nil => simp at h
  | cons y ys ih =>
    simp only [List.foldr_cons] at h
    by_cases hc : cond y
    · rw [if_pos hc] at h
      rcases List.mem_cons.mp h with rfl | h2
      · exact ⟨y, List.mem_cons_self y ys, hc, rfl⟩
      · obtain ⟨x, hx, hcx, hrx⟩ := ih h2
        exact ⟨x, List.mem_cons_of_mem y hx, hcx, hrx⟩
    · rw [if_neg hc] at h
      obtain ⟨x, hx, hcx, hrx⟩ := ih h
      exact ⟨x, List.mem_cons_of_mem y hx, hcx, hrx⟩

/-- A truthy nullable integer is a non-zero present value. -/
theorem truthyInt_eq_true {o : Option Int} (h : BaseLoader.truthyInt o = true) :
    ∃ v, o = some v ∧ v ≠ 0 := by
  cases o with
  | none => simp [BaseLoader.truthyInt] at h
  | some v =>
    refine ⟨v, rfl, ?_⟩
    simpa [BaseLoader.truthyInt] using h

/-- Counterexample to claim C1 as stated: the driver-championship transform
(a standing loader) does NOT drop a standing whose driver code has no entry
in the lookup map — it emits the record with a null `driver_id`. -/
theorem C1_counterexample :
    DriverChampionshipLoader.transform lookupDB ghostStandingsRaw =
      .ok [{ season_id := some 10, round_id := some 7, session_id := 20, driver_id := none,
             round_number := 3, session_number := 5, year := 2024, position := 1,
             points := 10, win_count := 0 }] := by
  rfl

/-- Claim C1 (amended): for the result loaders (race, sprint, qualifying), a
record whose driver or constructor code has no entry in the lookup maps is
dropped, and every transformed record carries a resolved non-null, non-zero
driver and team reference; the championship standing loaders, however, emit
records with a null reference instead of dropping them (see the
counterexample). -/
theorem C1_result_loaders_resolve_refs (db : DB) :
    (∀ raw recs, RaceResultLoader.transform db raw = .ok recs →
      ∀ rec ∈ recs, (∃ d, rec.driver_id = some d ∧ d ≠ 0) ∧
        (∃ tm, rec.team_id = some tm ∧ tm ≠ 0)) ∧
    (∀ raw recs, SprintResultLoader.transform db raw = .ok recs →
      ∀ rec ∈ recs, (∃ d, rec.driver_id = some d ∧ d ≠ 0) ∧
        (∃ tm, rec.team_id = some tm ∧ tm ≠ 0)) ∧
    (∀ raw recs, QualifyingResultLoader.transform db raw = .ok recs →
      ∀ rec ∈ recs, (∃ d, rec.driver_id = some d ∧ d ≠ 0) ∧
        (∃ tm, rec.team_id = some tm ∧ tm ≠ 0)) := by
  refine ⟨?_, ?_, ?_⟩
  · intro raw recs htr rec hrec
    revert htr
    cases hraces : raw.races with
    | nil =>
      simp only [RaceResultLoader.transform, hraces]
      intro htr
      injection htr with htr
      subst htr
      simp at hrec
    | cons race rest =>
      simp only [RaceResultLoader.transform, hraces]
      intro htr
      split at htr
      · exact absurd htr (by simp)
      · rename_i sid snum heq
        injection htr with htr
        subst htr
        obtain ⟨x, _, hcond, hrx⟩ := foldr_skip_mem _ _ _ _ hrec
        rw [Bool.and_eq_true] at hcond
        obtain ⟨d, hd, hd0⟩ := truthyInt_eq_true hcond.1
        obtain ⟨tm, ht, ht0⟩ := truthyInt_eq_true hcond.2
        subst hrx
        exact ⟨⟨d, hd, hd0⟩, ⟨tm, ht, ht0⟩⟩
  · intro raw recs htr rec hrec
    revert htr
    cases hraces : raw.races with
    | nil =>
      simp only [SprintResultLoader.transform, hraces]
      intro htr
      injection htr with htr
      subst htr
      simp at hrec
    | cons race rest =>
      simp only [SprintResultLoader.transform, hraces]
      intro htr
      split at htr
      · exact absurd htr (by simp)
      · rename_i sid snum heq
        injection htr with htr
        subst htr
        obtain ⟨x, _, hcond, hrx⟩ := foldr_skip_mem _ _ _ _ hrec
        rw [Bool.and_eq_true] at hcond
        obtain ⟨d, hd, hd0⟩ := truthyInt_eq_true hcond.1
        obtain ⟨tm, ht, ht0⟩ := truthyInt_eq_true hcond.2
        subst hrx
        exact ⟨⟨d, hd, hd0⟩, ⟨tm, ht, ht0⟩⟩
  · intro raw recs htr rec hrec
    revert htr
    cases hraces : raw.races with
    | nil =>
      simp only [QualifyingResultLoader.transform, hraces]
      intro htr
      injection htr with htr
      subst htr
      simp at hrec
    | cons race rest =>
      simp only [QualifyingResultLoader.transform, hraces]
      intro htr
      split at htr
      · exact absurd htr (by simp)
      · rename_i sid snum heq
        injection htr with htr
        subst htr
        obtain ⟨x, _, hcond, hrx⟩ := foldr_skip_mem _ _ _ _ hrec
        rw [Bool.and_eq_true] at hcond
        obtain ⟨d, hd, hd0⟩ := truthyInt_eq_true hcond.1
        obtain ⟨tm, ht, ht0⟩ := truthyInt_eq_true hcond.2
        subst hrx
        exact ⟨⟨d, hd, hd0⟩, ⟨tm, ht, ht0⟩⟩

/-- Witness for the amended C1 at a concrete resolvable payload. -/
theorem C1_witness :
    (∃ d, raceRecA.driver_id = some d ∧ d ≠ 0) ∧
    (∃ tm, raceRecA.team_id = some tm ∧ tm ≠ 0) :=
  (C1_result_loaders_resolve_refs lookupDB).1 knownRaceRaw [raceRecA] (by rfl) raceRecA
    (List.mem_singleton_self _)

/-- Claim C9 (evaluated at the failing input): the source coerces time
strings through Python float arithmetic and truncates with `int()`, so
`"0:01.001"` — a well-formed `M:SS.mmm` string whose value is 1001 ms —
comes out as 1000 ms, one short of the exact millisecond value the claim
(and the spec) promise.  The claim's own example `"1:23.456"` does evaluate
to 83456, and the null-handling half of the claim holds: absent and
unparsable inputs map to null, and a payload without a `Q3` block
transforms to a record with both `q3_time` and `q3_time_milliseconds`
null. -/
theorem C9_time_coercion_eval :
    BaseLoader.convert_time_to_ms (some "0:01.001") = some 1000 ∧
    BaseLoader.convert_time_to_ms (some "1:23.456") = some 83456 ∧
    BaseLoader.convert_time_to_ms none = none ∧
    BaseLoader.convert_time_to_ms (some "") = none ∧
    BaseLoader.convert_time_to_ms (some "no colon here") = none ∧
    QualifyingResultLoader.transform lookupDB q1q2Raw =
      .ok [{ season_id := some 10, round_id := some 7, last_session_id := 22,
             driver_id := some 1, team_id := some 2, position := 1,
             q1_time := some "1:23.456", q1_time_milliseconds := some 83456,
             q2_time := some "1:24.000", q2_time_milliseconds := some 84000,
             q3_time := none, q3_time_milliseconds := none }] :=
  ⟨by decide, by decide, rfl, by decide, by decide, by rfl⟩

/-- A NULLS-DISTINCT column collision is a shared non-null value. -/
theorem sqlNullEq_eq_true (a b : Option Int) :
    sqlNullEq a b = true ↔ ∃ v, a = some v ∧ b = some v := by
  cases a <;> cases b <;> simp [sqlNullEq]
  exact eq_comm

/-- A present row key pins down the three key columns. -/
theorem rowKey_eq_some (r : QualifyingResultLoader.Record) (a b c : Int) :
    rowKey? r = some (a, b, c) ↔
      r.season_id = some a ∧ r.round_id = some b ∧ r.driver_id = some c := by
  cases hs : r.season_id <;> cases hr : r.round_id <;> cases hd : r.driver_id <;>
    simp [rowKey?, hs, hr, hd]

/-- The NULLS-DISTINCT conflict test holds exactly when both rows carry the
same fully non-null key triple. -/
theorem keyConflict_iff (row rec : QualifyingResultLoader.Record) :
    QualifyingResultLoader.keyConflict row rec = true ↔
      ∃ k, rowKey? row = some k ∧ rowKey? rec = some k := by
  constructor
  · intro h
    rw [QualifyingResultLoader.keyConflict, Bool.and_eq_true, Bool.and_eq_true] at h
    obtain ⟨⟨h1, h2⟩, h3⟩ := h
    obtain ⟨v1, ha1, hb1⟩ := (sqlNullEq_eq_true _ _).mp h1
    obtain ⟨v2, ha2, hb2⟩ := (sqlNullEq_eq_true _ _).mp h2
    obtain ⟨v3, ha3, hb3⟩ := (sqlNullEq_eq_true _ _).mp h3
    exact ⟨(v1, v2, v3), (rowKey_eq_some row v1 v2 v3).mpr ⟨ha1, ha2, ha3⟩,
      (rowKey_eq_some rec v1 v2 v3).mpr ⟨hb1, hb2, hb3⟩⟩
  · rintro ⟨⟨a, b, c⟩, hrow, hrec⟩
    obtain ⟨ha1, ha2, ha3⟩ := (rowKey_eq_some row a b c).mp hrow
    obtain ⟨hb1, hb2, hb3⟩ := (rowKey_eq_some rec a b c).mp hrec
    rw [QualifyingResultLoader.keyConflict, ha1, ha2, ha3, hb1, hb2, hb3]
    simp [sqlNullEq]

theorem rowKey_updMut (rec row : QualifyingResultLoader.Record) :
    rowKey? (QualifyingResultLoader.updMut rec row) = rowKey? row := rfl

theorem updMut_updMut (r r2 row : QualifyingResultLoader.Record) :
    QualifyingResultLoader.updMut r (QualifyingResultLoader.updMut r2 row) =
      QualifyingResultLoader.updMut r row := rfl

theorem updMut_self (r : QualifyingResultLoader.Record) :
    QualifyingResultLoader.updMut r r = r := rfl

/-- The single-statement update preserves row keys. -/
theorem rowKey_pointUpd (r row : QualifyingResultLoader.Record) :
    rowKey? (if QualifyingResultLoader.keyConflict row r then
      QualifyingResultLoader.updMut r row else row) = rowKey? row := by
  by_cases h : QualifyingResultLoader.keyConflict row r <;> simp [h, rowKey_updMut]

theorem containsKey_upsert_mono (t : List QualifyingResultLoader.Record)
    (rec : QualifyingResultLoader.Record) (k : Int × Int × Int)
    (h : containsKey t k = true) :
    containsKey (QualifyingResultLoader.upsert t rec) k = true := by
  rw [containsKey, List.any_eq_true] at h
  obtain ⟨row, hm, hk⟩ := h
  rw [QualifyingResultLoader.upsert]
  by_cases hany : t.any (fun r2 => QualifyingResultLoader.keyConflict r2 rec)
  · rw [if_pos hany, containsKey, List.any_eq_true]
    refine ⟨_, List.mem_map_of_mem _ hm, ?_⟩
    rwa [rowKey_pointUpd]
  · rw [if_neg hany, containsKey, List.any_eq_true]
    exact ⟨row, List.mem_append_left _ hm, hk⟩

theorem containsKey_upsert_self (t : List QualifyingResultLoader.Record)
    (rec : QualifyingResultLoader.Record) (k : Int × Int × Int)
    (hk : rowKey? rec = some k) :
    containsKey (QualifyingResultLoader.upsert t rec) k = true := by
  rw [QualifyingResultLoader.upsert]
  by_cases hany : t.any (fun r2 => QualifyingResultLoader.keyConflict r2 rec)
  · rw [if_pos hany]
    rw [List.any_eq_true] at hany
    obtain ⟨row0, hm0, hc0⟩ := hany
    obtain ⟨k0, hk0row, hk0rec⟩ := (keyConflict_iff row0 rec).mp hc0
    rw [containsKey, List.any_eq_true]
    refine ⟨_, List.mem_map_of_mem _ hm0, ?_⟩
    rw [rowKey_pointUpd, hk0row]
    rw [hk] at hk0rec
    injection hk0rec with hkk
    simp [hkk]
  · rw [if_neg hany, containsKey, List.any_eq_true]
    exact ⟨rec, List.mem_append_right _ (List.mem_singleton_self rec), by simp [hk]⟩

/-- When the incoming record's key is already present, the upsert is a pure
per-row update. -/
theorem upsert_of_contains (t : List QualifyingResultLoader.Record)
    (rec : QualifyingResultLoader.Record) (k : Int × Int × Int)
    (hk : rowKey? rec = some k) (hc : containsKey t k = true) :
    QualifyingResultLoader.upsert t rec =
      t.map (fun row => if QualifyingResultLoader.keyConflict row rec then
        QualifyingResultLoader.updMut rec row else row) := by
  rw [QualifyingResultLoader.upsert, if_pos]
  rw [containsKey, List.any_eq_true] at hc
  obtain ⟨row, hm, hrk⟩ := hc
  rw [List.any_eq_true]
  refine ⟨row, hm, ?_⟩
  rw [keyConflict_iff]
  exact ⟨k, by simpa using hrk, hk⟩

theorem containsKey_map_pointUpd (t : List QualifyingResultLoader.Record)
    (r : QualifyingResultLoader.Record) (k : Int × Int × Int) :
    containsKey (t.map (fun row => if QualifyingResultLoader.keyConflict row r then
      QualifyingResultLoader.updMut r row else row)) k = containsKey t k := by
  rw [containsKey, containsKey, List.any_map]
  congr 1
  funext row
  simp [Function.comp, rowKey_pointUpd]

theorem lastTouch_append (b : List QualifyingResultLoader.Record)
    (r2 : QualifyingResultLoader.Record) (k : Int × Int × Int) :
    lastTouch (b ++ [r2]) k =
      if rowKey? r2 = some k then some r2 else lastTouch b k := by
  induction b with
  | nil => simp [lastTouch]
  | cons x rest ih =>
    have hunf : lastTouch ((x :: rest) ++ [r2]) k =
        (match lastTouch (rest ++ [r2]) k with
         | some r3 => some r3
         | none => if rowKey? x = some k then some x else none) := rfl
    have hunf2 : lastTouch (x :: rest) k =
        (match lastTouch rest k with
         | some r3 => some r3
         | none => if rowKey? x = some k then some x else none) := rfl
    rw [hunf, ih, hunf2]
    by_cases h2 : rowKey? r2 = some k
    · rw [if_pos h2, if_pos h2]
    · rw [if_neg h2, if_neg h2]

/-- Replaying a batch whose keys are all present acts as a per-row map. -/
theorem replay_map (b : List QualifyingResultLoader.Record) :
    ∀ (t : List QualifyingResultLoader.Record),
      (∀ rec ∈ b, ∃ k, rowKey? rec = some k ∧ containsKey t k = true) →
      b.foldl QualifyingResultLoader.upsert t = t.map (replayFun b) := by
  induction b with
  | nil =>
    intro t _
    have hid : ∀ row, replayFun [] row = row := by
      intro row
      rw [replayFun]
      cases rowKey? row <;> simp [lastTouch]
    calc [].foldl QualifyingResultLoader.upsert t = t := rfl
      _ = t.map id := (List.map_id t).symm
      _ = t.map (replayFun []) := List.map_congr_left (fun row _ => (hid row).symm)
  | cons r rest ih =>
    intro t h
    obtain ⟨k, hk, hcont⟩ := h r (List.mem_cons_self r rest)
    rw [List.foldl_cons, upsert_of_contains t r k hk hcont]
    rw [ih _ ?_]
    · rw [List.map_map]
      apply List.map_congr_left
      intro row _
      show replayFun rest (if QualifyingResultLoader.keyConflict row r then
        QualifyingResultLoader.updMut r row else row) = replayFun (r :: rest) row
      by_cases hcf : QualifyingResultLoader.keyConflict row r = true
      · obtain ⟨k2, hrow, hrk2⟩ := (keyConflict_iff row r).mp hcf
        rw [hcf, if_pos rfl]
        rw [replayFun, replayFun, rowKey_updMut, hrow]
        dsimp only
        have hlt : lastTouch (r :: rest) k2 =
            (match lastTouch rest k2 with
             | some r3 => some r3
             | none => if rowKey? r = some k2 then some r else none) := rfl
        rw [hlt]
        cases hrest : lastTouch rest k2 with
        | some r3 =>
          dsimp only
          rw [updMut_updMut]
        | none =>
          rw [if_pos hrk2]
      · have hfalse : QualifyingResultLoader.keyConflict row r = false :=
          Bool.eq_false_iff.mpr hcf
        rw [hfalse]
        simp only [Bool.false_eq_true, if_false]
        cases hrow : rowKey? row with
        | none => rw [replayFun, replayFun, hrow]
        | some k2 =>
          have hrk2 : rowKey? r ≠ some k2 := by
            intro hr2
            exact hcf ((keyConflict_iff row r).mpr ⟨k2, hrow, hr2⟩)
          rw [replayFun, replayFun, hrow]
          dsimp only
          have hlt : lastTouch (r :: rest) k2 =
              (match lastTouch rest k2 with
               | some r3 => some r3
               | none => if rowKey? r = some k2 then some r else none) := rfl
          rw [hlt]
          cases hrest : lastTouch rest k2 with
          | some r3 => rfl
          | none => rw [if_neg hrk2]
    · intro rec hrec
      obtain ⟨k2, hk2, hc2⟩ := h rec (List.mem_cons_of_mem r hrec)
      exact ⟨k2, hk2, by rwa [containsKey_map_pointUpd]⟩

theorem containsKey_foldl_mono (b : List QualifyingResultLoader.Record) :
    ∀ (t : List QualifyingResultLoader.Record) (k : Int × Int × Int),
      containsKey t k = true →
      containsKey (b.foldl QualifyingResultLoader.upsert t) k = true := by
  induction b with
  | nil => intro t k h; exact h
  | cons r rest ih =>
    intro t k h
    rw [List.foldl_cons]
    exact ih _ k (containsKey_upsert_mono t r k h)

/-- After loading a batch, every key of the batch is present in the
table. -/
theorem keys_present (b : List QualifyingResultLoader.Record) :
    ∀ (t : List QualifyingResultLoader.Record) (rec : QualifyingResultLoader.Record),
      rec ∈ b → ∀ k, rowKey? rec = some k →
      containsKey (b.foldl QualifyingResultLoader.upsert t) k = true := by
  induction b with
  | nil => intro t rec h; exact absurd h (List.not_mem_nil rec)
  | cons r rest ih =>
    intro t rec hrec k hk
    rw [List.foldl_cons]
    rcases List.mem_cons.mp hrec with rfl | hrec2
    · exact containsKey_foldl_mono rest _ k (containsKey_upsert_self t rec k hk)
    · exact ih _ rec hrec2 k hk

/-- After loading a batch, each surviving row already carries the mutable
columns of the last batch record touching its key: re-applying that record
changes nothing. -/
theorem result_absorbed (b : List QualifyingResultLoader.Record) :
    ∀ (t : List QualifyingResultLoader.Record) (row : QualifyingResultLoader.Record),
      row ∈ b.foldl QualifyingResultLoader.upsert t →
      ∀ (k : Int × Int × Int) (rec : QualifyingResultLoader.Record),
        rowKey? row = some k → lastTouch b k = some rec →
        QualifyingResultLoader.updMut rec row = row := by
  induction b using List.reverseRecOn with
  | nil =>
    intro t row _ k rec _ hlt
    simp [lastTouch] at hlt
  | append_singleton b2 r2 ih =>
    intro t row hrow k rec hk hlt
    rw [List.foldl_append] at hrow
    rw [lastTouch_append] at hlt
    simp only [List.foldl_cons, List.foldl_nil] at hrow
    rw [QualifyingResultLoader.upsert] at hrow
    by_cases hany : (b2.foldl QualifyingResultLoader.upsert t).any
        (fun row2 => QualifyingResultLoader.keyConflict row2 r2)
    · rw [if_pos hany] at hrow
      obtain ⟨row0, hm0, heq0⟩ := List.mem_map.mp hrow
      by_cases hr2k : rowKey? r2 = some k
      · rw [if_pos hr2k] at hlt
        injection hlt with hlt
        subst hlt
        by_cases hcf : QualifyingResultLoader.keyConflict row0 r2 = true
        · rw [hcf, if_pos rfl] at heq0
          rw [← heq0, updMut_updMut]
        · rw [Bool.eq_false_iff.mpr hcf] at heq0
          simp only [Bool.false_eq_true, if_false] at heq0
          exfalso
          apply hcf
          refine (keyConflict_iff row0 r2).mpr ⟨k, ?_, hr2k⟩
          rw [heq0]
          exact hk
      · rw [if_neg hr2k] at hlt
        by_cases hcf : QualifyingResultLoader.keyConflict row0 r2 = true
        · exfalso
          obtain ⟨k3, h3a, h3b⟩ := (keyConflict_iff row0 r2).mp hcf
          rw [hcf, if_pos rfl] at heq0
          have hkey0 : rowKey? row0 = some k := by
            rw [← heq0] at hk
            rwa [rowKey_updMut] at hk
          rw [hkey0] at h3a
          injection h3a with h3a
          exact hr2k (h3a ▸ h3b)
        · rw [Bool.eq_false_iff.mpr hcf] at heq0
          simp only [Bool.false_eq_true, if_false] at heq0
          subst heq0
          exact ih t row0 hm0 k rec hk hlt
    · rw [if_neg hany] at hrow
      rcases List.mem_append.mp hrow with hmem | hmem
      · by_cases hr2k : rowKey? r2 = some k
        · rw [if_pos hr2k] at hlt
          injection hlt with hlt
          subst hlt
          exfalso
          apply hany
          rw [List.any_eq_true]
          exact ⟨row, hmem, (keyConflict_iff row r2).mpr ⟨k, hk, hr2k⟩⟩
        · rw [if_neg hr2k] at hlt
          exact ih t row hmem k rec hk hlt
      · rcases List.mem_singleton.mp hmem with rfl
        rw [if_pos hk] at hlt
        injection hlt with hlt
        subst hlt
        exact updMut_self row

/-- With no statement failures, the qualifying load loop upserts every
record on the working state and commits. -/
theorem quali_load_noFail (b : List QualifyingResultLoader.Record) :
    ∀ (c : Conn (List QualifyingResultLoader.Record)) (count : Int),
      QualifyingResultLoader.loadGo (fun _ => none) b c count =
        (.ok (count + b.length),
         ⟨b.foldl QualifyingResultLoader.upsert c.working,
          b.foldl QualifyingResultLoader.upsert c.working⟩) := by
  induction b with
  | nil =>
    intro c count
    simp [QualifyingResultLoader.loadGo, Conn.commit]
  | cons r rest ih =>
    intro c count
    rw [show QualifyingResultLoader.loadGo (fun _ => none) (r :: rest) c count =
      QualifyingResultLoader.loadGo (fun _ => none) rest
        (c.exec fun t => QualifyingResultLoader.upsert t r) (count + 1) from rfl]
    rw [ih]
    simp only [Conn.exec, List.foldl_cons, List.length_cons, Prod.mk.injEq,
      Except.ok.injEq]
    refine ⟨by push_cast; ring, trivial⟩


/-- Counterexample to claim C7 as stated: a record whose natural key has a
NULL season component never conflicts under SQL NULLS-DISTINCT semantics,
so loading the identical single-record batch twice duplicates the row (two
rows) instead of leaving the table as after one load (one row). -/
theorem C7_counterexample :
    (QualifyingResultLoader.load (fun _ => none) [qualiRecNullKey]
      (Conn.mk
        ((QualifyingResultLoader.load (fun _ => none) [qualiRecNullKey]
          (Conn.mk [] [])).2.committed)
        ((QualifyingResultLoader.load (fun _ => none) [qualiRecNullKey]
          (Conn.mk [] [])).2.committed))).2.committed ≠
    (QualifyingResultLoader.load (fun _ => none) [qualiRecNullKey]
      (Conn.mk [] [])).2.committed := by
  decide

/-- Claim C7 (amended): for batches whose records carry fully non-null
natural keys (season, round, driver), loading the batch twice leaves the
committed qualifying table exactly as loading it once — conflicting rows
are updated in place, never duplicated.  (A record with a null key
component is re-inserted on every load, see the counterexample.) -/
theorem C7_upsert_idempotent (t b : List QualifyingResultLoader.Record)
    (hk : ∀ rec ∈ b, rec.season_id.isSome ∧ rec.round_id.isSome ∧ rec.driver_id.isSome) :
    (QualifyingResultLoader.load (fun _ => none) b
      (Conn.mk
        ((QualifyingResultLoader.load (fun _ => none) b (Conn.mk t t)).2.committed)
        ((QualifyingResultLoader.load (fun _ => none) b (Conn.mk t t)).2.committed))).2.committed =
    (QualifyingResultLoader.load (fun _ => none) b (Conn.mk t t)).2.committed := by
  have h1 : (QualifyingResultLoader.load (fun _ => none) b (Conn.mk t t)).2.committed =
      b.foldl QualifyingResultLoader.upsert t := by
    rw [QualifyingResultLoader.load, quali_load_noFail]
  rw [h1]
  have h2 : (QualifyingResultLoader.load (fun _ => none) b
      (Conn.mk (b.foldl QualifyingResultLoader.upsert t)
        (b.foldl QualifyingResultLoader.upsert t))).2.committed =
      b.foldl QualifyingResultLoader.upsert (b.foldl QualifyingResultLoader.upsert t) := by
    rw [QualifyingResultLoader.load, quali_load_noFail]
  rw [h2]
  have hpre : ∀ rec ∈ b, ∃ k, rowKey? rec = some k ∧
      containsKey (b.foldl QualifyingResultLoader.upsert t) k = true := by
    intro rec hrec
    obtain ⟨h1s, h2s, h3s⟩ := hk rec hrec
    obtain ⟨a, ha⟩ := Option.isSome_iff_exists.mp h1s
    obtain ⟨b2, hb⟩ := Option.isSome_iff_exists.mp h2s
    obtain ⟨c2, hc⟩ := Option.isSome_iff_exists.mp h3s
    have hkey : rowKey? rec = some (a, b2, c2) :=
      (rowKey_eq_some rec a b2 c2).mpr ⟨ha, hb, hc⟩
    exact ⟨(a, b2, c2), hkey, keys_present b t rec hrec _ hkey⟩
  rw [replay_map b _ hpre]
  have hfix : ∀ row ∈ b.foldl QualifyingResultLoader.upsert t, replayFun b row = row := by
    intro row hrow
    rw [replayFun]
    cases hkey : rowKey? row with
    | none => rfl
    | some k =>
      dsimp only
      cases hlt : lastTouch b k with
      | none => rfl
      | some rec => exact result_absorbed b t row hrow k rec hkey hlt
  calc (b.foldl QualifyingResultLoader.upsert t).map (replayFun b)
      = (b.foldl QualifyingResultLoader.upsert t).map id :=
        List.map_congr_left (fun row hrow => hfix row hrow)
    _ = b.foldl QualifyingResultLoader.upsert t := List.map_id _

/-- Witness for the amended C7 at a concrete fully keyed batch. -/
theorem C7_witness :
    (QualifyingResultLoader.load (fun _ => none) [qualiRecA]
      (Conn.mk
        ((QualifyingResultLoader.load (fun _ => none) [qualiRecA]
          (Conn.mk [] [])).2.committed)
        ((QualifyingResultLoader.load (fun _ => none) [qualiRecA]
          (Conn.mk [] [])).2.committed))).2.committed =
    (QualifyingResultLoader.load (fun _ => none) [qualiRecA]
      (Conn.mk [] [])).2.committed :=
  C7_upsert_idempotent [] [qualiRecA] (by decide)

/-- Inserting rows whose ids are fresh for the table and mutually distinct
appends them all in order (no `ON CONFLICT (id) DO NOTHING` skip fires). -/
theorem ps_foldl_insert_fresh (l : List PreSeasonLoader.Row) :
    ∀ (tbl : List PreSeasonLoader.Row),
      (∀ r ∈ l, ∀ t2 ∈ tbl, t2.id ≠ r.id) →
      l.Pairwise (fun a b => a.id ≠ b.id) →
      l.foldl PreSeasonLoader.insert_ignore tbl = tbl ++ l := by
  induction l with
  | nil => intro tbl _ _; simp
  | cons r rest ih =>
    intro tbl hfresh hpair
    have hany : tbl.any (fun t2 => t2.id == r.id) = false := by
      rw [Bool.eq_false_iff]
      intro hc
      rw [List.any_eq_true] at hc
      obtain ⟨t2, hm, hid⟩ := hc
      exact hfresh r (List.mem_cons_self r rest) t2 hm (by simpa using hid)
    have hstep : PreSeasonLoader.insert_ignore tbl r = tbl ++ [r] := by
      rw [PreSeasonLoader.insert_ignore, hany]
      simp
    rw [List.foldl_cons, hstep]
    rw [ih (tbl ++ [r]) ?_ (List.pairwise_cons.mp hpair).2]
    · simp
    · intro x hx t2 ht2
      rcases List.mem_append.mp ht2 with h2 | h2
      · exact hfresh x (List.mem_cons_of_mem r hx) t2 h2
      · rcases List.mem_singleton.mp h2 with rfl
        exact (List.pairwise_cons.mp hpair).1 x hx

/-- Claim C8: when the warehouse holds `N` rows and the incoming
append-ordered dump holds `M > N` rows whose suffix ids are fresh and
distinct, the pre-season diff load inserts exactly the last `M - N` rows in
dump order, resets the identifier sequence to the resulting maximum id, and
returns `M - N`; when `M ≤ N` nothing is inserted and the sequence is
untouched (the source still returns the non-positive `M - N`). -/
theorem C8_preseason_diff_load (tbl : List PreSeasonLoader.Row) (seq : Int)
    (incoming : List PreSeasonLoader.Row) :
    (tbl.length < incoming.length →
      (∀ r ∈ incoming.drop tbl.length, ∀ t2 ∈ tbl, t2.id ≠ r.id) →
      ((incoming.drop tbl.length).Pairwise (fun a b => a.id ≠ b.id)) →
      PreSeasonLoader.load tbl seq incoming =
        ((incoming.length : Int) - tbl.length,
         tbl ++ incoming.drop tbl.length,
         match MetadataManager.sqlMax
            ((tbl ++ incoming.drop tbl.length).map (fun r => r.id)) with
         | none => 0
         | some v => v)) ∧
    (incoming.length ≤ tbl.length →
      PreSeasonLoader.load tbl seq incoming =
        ((incoming.length : Int) - tbl.length, tbl, seq)) := by
  constructor
  · intro hlen hfresh hpair
    simp only [PreSeasonLoader.load]
    rw [if_pos (by omega : (0 : Int) < (incoming.length : Int) - tbl.length)]
    have hdrop : incoming.length - ((incoming.length : Int) - (tbl.length : Int)).toNat =
        tbl.length := by omega
    rw [hdrop, ps_foldl_insert_fresh _ tbl hfresh hpair]
  · intro hle
    simp only [PreSeasonLoader.load]
    rw [if_neg (by omega : ¬ (0 : Int) < (incoming.length : Int) - tbl.length)]

/-- Witness for C8: one current row, a three-row dump — the last two rows
are inserted and the sequence lands on the new maximum id 3. -/
theorem C8_witness : PreSeasonLoader.load [⟨1, "a"⟩] 1 psRows = (2, psRows, 3) := by
  have h := (C8_preseason_diff_load [⟨1, "a"⟩] 1 psRows).1 (by decide) (by decide) (by decide)
  rw [h]
  decide
